import Mathlib

/-!
Verification of the error-handling, temperature-conversion, random-number
and driver-script components of the zacks-go-examples repository, embedded
shallowly in Lean.  Go `error` interface values are modelled by
`Option ErrVal`: `none` is the nil error, `some e` a concrete error value.
-/

set_option maxRecDepth 4000
set_option linter.unusedVariables false

/-- The universe of concrete error values occurring in the repository's
programs: `basic` covers `errors.New`/`fmt.Errorf` without `%w`;
`errNotExist` is the `os.ErrNotExist` sentinel; `errno` a `syscall.Errno`
(whose `Is` method reports whether it matches `ErrNotExist`);
`pathError` is `fs.PathError`; `syntaxError` is `json.SyntaxError`;
`customError`, `customWrapped`, `fileError` and `resolvable` are the
repository's own error structs; `wrapf` is `fmt.Errorf` with a `%w` verb. -/
inductive ErrVal : Type where
  | basic (msg : String)
  | errNotExist
  | errno (isNotExist : Bool)
  | pathError (op : String) (path : String) (err : ErrVal)
  | syntaxError (offset : Nat)
  | customError (msg : String)
  | customWrapped (msg : String) (err : Option ErrVal)
  | fileError (filename : String) (err : Option ErrVal)
  | resolvable (knowledgebaseURL : String) (err : Option ErrVal)
  | wrapf (msg : String) (err : ErrVal)

/-- `errors.Unwrap`: calls the receiver's `Unwrap` method when the dynamic
type has one, returning its result; yields `nil` for types without an
`Unwrap` method.  In the source, `CustomWrappedError.Unwrap` and
`FileError.Unwrap` return the stored `err` field, `fs.PathError.Unwrap`
returns its `Err` field, and `fmt.Errorf` with `%w` wraps its argument;
`resolvableError`, `CustomError`, `syscall.Errno`, sentinels and plain
errors define no `Unwrap` method. -/
def errorsUnwrap : ErrVal → Option ErrVal
  | .basic _ => none
  | .errNotExist => none
  | .errno _ => none
  | .pathError _ _ e => some e
  | .syntaxError _ => none
  | .customError _ => none
  | .customWrapped _ e => e
  | .fileError _ e => e
  | .resolvable _ _ => none
  | .wrapf _ e => some e

theorem sizeOf_lt_of_errorsUnwrap {e e' : ErrVal} (h : errorsUnwrap e = some e') :
    sizeOf e' < sizeOf e := by
  cases e with
  | basic msg => simp [errorsUnwrap] at h
  | errNotExist => simp [errorsUnwrap] at h
  | errno b => simp [errorsUnwrap] at h
  | pathError op path err =>
      simp [errorsUnwrap] at h; subst h; simp
  | syntaxError off => simp [errorsUnwrap] at h
  | customError msg => simp [errorsUnwrap] at h
  | customWrapped msg err =>
      simp only [errorsUnwrap] at h; subst h; simp; omega
  | fileError filename err =>
      simp only [errorsUnwrap] at h; subst h; simp; omega
  | resolvable url err => simp [errorsUnwrap] at h
  | wrapf msg err =>
      simp [errorsUnwrap] at h; subst h; simp

/-- The loop body of `utils.TraverseErrorChain`, entered with a non-nil
cursor `e`: first unwraps the cursor, then applies `matchFunc` to the
(possibly nil) unwrapped value, returning the first non-nil result;
continues while the cursor stays non-nil and returns nil otherwise. -/
def traverseFrom (matchFunc : Option ErrVal → Option ErrVal) (e : ErrVal) : Option ErrVal :=
  match h : errorsUnwrap e with
  | none =>
    match matchFunc none with
    | some m => some m
    | none => none
  | some e' =>
    match matchFunc (some e') with
    | some m => some m
    | none => traverseFrom matchFunc e'
termination_by sizeOf e
decreasing_by exact sizeOf_lt_of_errorsUnwrap h

/-- `utils.TraverseErrorChain` from `more_wrapped_error_types.go`:
`var unwrapped error = err`, then while the cursor is non-nil it unwraps
it and applies `matchFunc`, returning the first non-nil match result;
returns nil when the walk ends. -/
def TraverseErrorChain (err : Option ErrVal) (matchFunc : Option ErrVal → Option ErrVal) :
    Option ErrVal :=
  match err with
  | none => none
  | some e => traverseFrom matchFunc e

/-- The chain of error values reachable from a head value by repeated
unwrapping, head included. -/
def chainList : ErrVal → List ErrVal
  | e =>
    match h : errorsUnwrap e with
    | none => [e]
    | some e' => e :: chainList e'
termination_by e => sizeOf e
decreasing_by exact sizeOf_lt_of_errorsUnwrap h

/-- First non-nil result of `f` over a list of (possibly nil) error values. -/
def firstMatch (f : Option ErrVal → Option ErrVal) : List (Option ErrVal) → Option ErrVal
  | [] => none
  | x :: xs =>
    match f x with
    | some m => some m
    | none => firstMatch f xs

/-- The sequence of values `TraverseErrorChain` feeds to `matchFunc` when
started at head `e`: every element of the chain after the head, then nil. -/
def visitedValues (e : ErrVal) : List (Option ErrVal) :=
  ((chainList e).tail.map Option.some) ++ [none]

theorem chainList_eq_none {e : ErrVal} (h : errorsUnwrap e = none) :
    chainList e = [e] := by
  rw [chainList]
  split
  · rfl
  · rename_i e' h'; rw [h] at h'; exact absurd h' (by simp)

theorem chainList_eq_some {e e' : ErrVal} (h : errorsUnwrap e = some e') :
    chainList e = e :: chainList e' := by
  rw [chainList]
  split
  · rename_i h'; rw [h] at h'; exact absurd h' (by simp)
  · rename_i e'' h'; rw [h] at h'; cases h'; rfl

theorem chainList_cons_tail (e : ErrVal) : chainList e = e :: (chainList e).tail := by
  cases h : errorsUnwrap e with
  | none => rw [chainList_eq_none h]; rfl
  | some e' => rw [chainList_eq_some h]; rfl

theorem visitedValues_eq_none {e : ErrVal} (h : errorsUnwrap e = none) :
    visitedValues e = [none] := by
  unfold visitedValues
  rw [chainList_eq_none h]
  rfl

theorem visitedValues_eq_some {e e' : ErrVal} (h : errorsUnwrap e = some e') :
    visitedValues e = some e' :: visitedValues e' := by
  unfold visitedValues
  rw [chainList_eq_some h]
  rw [List.tail_cons]
  rw [chainList_cons_tail e']
  rfl

theorem traverseFrom_eq_firstMatch (f : Option ErrVal → Option ErrVal) (e : ErrVal) :
    traverseFrom f e = firstMatch f (visitedValues e) := by
  rw [traverseFrom]
  cases h : errorsUnwrap e with
  | none =>
    rw [visitedValues_eq_none h]
    cases hf : f none <;> simp [firstMatch, hf]
  | some e' =>
    rw [visitedValues_eq_some h]
    cases hf : f (some e') with
    | some m => simp [firstMatch, hf]
    | none =>
      simp only [firstMatch, hf]
      exact traverseFrom_eq_firstMatch f e'
termination_by sizeOf e
decreasing_by exact sizeOf_lt_of_errorsUnwrap h

/-- The result claimed by the spec for `TraverseErrorChain`: the match
function is applied at every node of the chain in unwrap order, starting
from the given head error, and the result of the first match is returned
(nil when no node matches).  This definition follows the spec's words,
to be compared with `TraverseErrorChain`, which embeds the source. -/
def claimedTraverseResult (err : Option ErrVal)
    (matchFunc : Option ErrVal → Option ErrVal) : Option ErrVal :=
  match err with
  | none => none
  | some e => firstMatch matchFunc ((chainList e).map Option.some)

/-- A match function that matches exactly the `customError` nodes. -/
def matchCustomError : Option ErrVal → Option ErrVal
  | some (.customError m) => some (.customError m)
  | _ => none

/-- C1 counterexample: on the single-node chain headed by
`CustomError "head"`, with a match function that matches that very head,
the spec's claim predicts the head is returned, but `TraverseErrorChain`
returns nil — the head error is never passed to the match function. -/
theorem C1_counterexample_head_never_matched :
    TraverseErrorChain (some (.customError "head")) matchCustomError = none ∧
    claimedTraverseResult (some (.customError "head")) matchCustomError =
      some (.customError "head") := by
  constructor
  · show traverseFrom matchCustomError (.customError "head") = none
    rw [traverseFrom]
    rfl
  · show firstMatch matchCustomError ((chainList (.customError "head")).map Option.some) =
      some (.customError "head")
    rw [chainList_eq_none (by rfl)]
    rfl

/-- C1 (amended): `TraverseErrorChain` walks the chain linearly, but the
values handed to the caller-supplied match function are those produced by
unwrapping: every chain node strictly after the head, in unwrap order, and
finally the nil value past the node without an inner error, at which the
walk terminates.  The result is that of the first non-nil match, and nil
when no application of the match function matches or when the head is
nil. -/
theorem C1_TraverseErrorChain_matches_strictly_after_head
    (f : Option ErrVal → Option ErrVal) :
    TraverseErrorChain none f = none ∧
    ∀ e : ErrVal, TraverseErrorChain (some e) f = firstMatch f (visitedValues e) := by
  refine ⟨rfl, fun e => ?_⟩
  show traverseFrom f e = firstMatch f (visitedValues e)
  exact traverseFrom_eq_firstMatch f e

/-- `errors.Unwrap` on a Go `error` interface value: a nil interface has no
dynamic type, so the interface assertion inside `errors.Unwrap` fails and
nil is returned; otherwise dispatch on the dynamic type. -/
def errorsUnwrapO : Option ErrVal → Option ErrVal
  | none => none
  | some e => errorsUnwrap e

/-- `utils.NewCustomWrappedError` from `custom_wrapped_error_type.go`:
returns `&CustomWrappedError{msg: msg, err: err}` as an `error`. -/
def NewCustomWrappedError (msg : String) (err : Option ErrVal) : Option ErrVal :=
  some (.customWrapped msg err)

/-- `utils.NewFileError` from `more_wrapped_error_types.go`: returns
`&FileError{filename: filename, err: err}` as an `error`. -/
def NewFileError (filename : String) (err : Option ErrVal) : Option ErrVal :=
  some (.fileError filename err)

/-- C7: unwrap is a left inverse of wrapping — for every message and every
(possibly nil) inner error, `errors.Unwrap` applied to a freshly built
`CustomWrappedError` or `FileError` returns exactly the inner error that
was passed to the constructor. -/
theorem C7_unwrap_left_inverse_of_wrap (msg : String) (err : Option ErrVal) :
    errorsUnwrapO (NewCustomWrappedError msg err) = err ∧
    errorsUnwrapO (NewFileError msg err) = err := by
  exact ⟨rfl, rfl⟩

/-- C3 counterexample: a `resolvableError` holding the lookup URL of the
source's first example and a non-nil inner error does not expose that
inner error through unwrapping — `errors.Unwrap` on it returns nil,
because `resolvableError` implements no `Unwrap` method. -/
theorem C3_counterexample_resolvable_has_no_unwrap :
    errorsUnwrapO
        (some (.resolvable "https://link.to.kb.article/123"
          (some (.basic "file not found")))) = none ∧
    some (ErrVal.basic "file not found") ≠ (none : Option ErrVal) := by
  exact ⟨rfl, by simp⟩

/-- C3 (amended): each of the three wrapper types holds its context (a
message, a filename, or a lookup URL) together with an optional inner
error; `CustomWrappedError` and `FileError` expose an unwrap-to-inner
accessor returning exactly the stored inner error, but `resolvableError`
defines no unwrap accessor, so `errors.Unwrap` on it yields nil whatever
inner error it stores. -/
theorem C3_wrapper_types_unwrap_behaviour (ctx : String) (err : Option ErrVal) :
    errorsUnwrapO (NewCustomWrappedError ctx err) = err ∧
    errorsUnwrapO (NewFileError ctx err) = err ∧
    errorsUnwrapO (some (.resolvable ctx err)) = none := by
  exact ⟨rfl, rfl, rfl⟩

namespace typedtemps

/-! Standalone conversion functions from
`interfaces/02-typed-temperatures/main.go`, with float64 arithmetic
embedded over the rationals (273.15 = 27315/100). -/

/-- `FahrenheitToCelsius(f) = Celsius((float64(f) - 32) * 5 / 9)`. -/
def FahrenheitToCelsius (f : ℚ) : ℚ := (f - 32) * 5 / 9

/-- `CelsiusToFahrenheit(c) = Fahrenheit((float64(c) * 9 / 5) + 32)`. -/
def CelsiusToFahrenheit (c : ℚ) : ℚ := c * 9 / 5 + 32

/-- `CelsiusToKelvin(c) = Kelvin(float64(c) + 273.15)`. -/
def CelsiusToKelvin (c : ℚ) : ℚ := c + 27315 / 100

/-- `KelvinToCelsius(k) = Celsius(float64(k) - 273.15)`. -/
def KelvinToCelsius (k : ℚ) : ℚ := k - 27315 / 100

/-- `FahrenheitToKelvin` converts through Celsius. -/
def FahrenheitToKelvin (f : ℚ) : ℚ := CelsiusToKelvin (FahrenheitToCelsius f)

/-- `KelvinToFahrenheit` converts through Celsius. -/
def KelvinToFahrenheit (k : ℚ) : ℚ := CelsiusToFahrenheit (KelvinToCelsius k)

end typedtemps

namespace tempmethods

/-! Method-based conversions of the `Temperature` interface example
(`src/unnamed/part_003`), embedded over the rationals.  Each Go method
`(f Fahrenheit) Celsius() Celsius` and so on becomes a function on `ℚ`. -/

/-- `(f Fahrenheit) Celsius() = Celsius((f - 32) * 5 / 9)`. -/
def Fahrenheit.Celsius (f : ℚ) : ℚ := (f - 32) * 5 / 9

/-- `(c Celsius) Fahrenheit() = Fahrenheit((c * 9 / 5) + 32)`. -/
def Celsius.Fahrenheit (c : ℚ) : ℚ := c * 9 / 5 + 32

/-- `(c Celsius) Kelvin() = Kelvin(c + 273.15)`. -/
def Celsius.Kelvin (c : ℚ) : ℚ := c + 27315 / 100

/-- `(k Kelvin) Celsius() = Celsius(k - 273.15)`. -/
def Kelvin.Celsius (k : ℚ) : ℚ := k - 27315 / 100

/-- `(f Fahrenheit) Kelvin() = f.Celsius().Kelvin()`. -/
def Fahrenheit.Kelvin (f : ℚ) : ℚ := Celsius.Kelvin (Fahrenheit.Celsius f)

/-- `(k Kelvin) Fahrenheit() = k.Celsius().Fahrenheit()`. -/
def Kelvin.Fahrenheit (k : ℚ) : ℚ := Celsius.Fahrenheit (Kelvin.Celsius k)

end tempmethods

/-- C2: converting a temperature from one unit to a second and back yields
the original value exactly over the rationals, for every pair drawn from
Fahrenheit, Celsius and Kelvin, both for the standalone conversion
functions and for the method-based conversions. -/
theorem C2_temperature_roundtrips (t : ℚ) :
    typedtemps.CelsiusToFahrenheit (typedtemps.FahrenheitToCelsius t) = t ∧
    typedtemps.FahrenheitToCelsius (typedtemps.CelsiusToFahrenheit t) = t ∧
    typedtemps.KelvinToCelsius (typedtemps.CelsiusToKelvin t) = t ∧
    typedtemps.CelsiusToKelvin (typedtemps.KelvinToCelsius t) = t ∧
    typedtemps.KelvinToFahrenheit (typedtemps.FahrenheitToKelvin t) = t ∧
    typedtemps.FahrenheitToKelvin (typedtemps.KelvinToFahrenheit t) = t ∧
    tempmethods.Celsius.Fahrenheit (tempmethods.Fahrenheit.Celsius t) = t ∧
    tempmethods.Fahrenheit.Celsius (tempmethods.Celsius.Fahrenheit t) = t ∧
    tempmethods.Kelvin.Celsius (tempmethods.Celsius.Kelvin t) = t ∧
    tempmethods.Celsius.Kelvin (tempmethods.Kelvin.Celsius t) = t ∧
    tempmethods.Kelvin.Fahrenheit (tempmethods.Fahrenheit.Kelvin t) = t ∧
    tempmethods.Fahrenheit.Kelvin (tempmethods.Kelvin.Fahrenheit t) = t := by
  refine ⟨?_, ?_, ?_, ?_, ?_, ?_, ?_, ?_, ?_, ?_, ?_, ?_⟩ <;>
    simp only [typedtemps.CelsiusToFahrenheit, typedtemps.FahrenheitToCelsius,
      typedtemps.KelvinToCelsius, typedtemps.CelsiusToKelvin,
      typedtemps.KelvinToFahrenheit, typedtemps.FahrenheitToKelvin,
      tempmethods.Celsius.Fahrenheit, tempmethods.Fahrenheit.Celsius,
      tempmethods.Kelvin.Celsius, tempmethods.Celsius.Kelvin,
      tempmethods.Kelvin.Fahrenheit, tempmethods.Fahrenheit.Kelvin] <;>
    ring

/-- C8: for every input, each standalone conversion function of the
typed-temperatures example computes the same result as the corresponding
method of the interface example, including the Fahrenheit/Kelvin
conversions composed through Celsius. -/
theorem C8_standalone_equals_method_conversions (x : ℚ) :
    typedtemps.FahrenheitToCelsius x = tempmethods.Fahrenheit.Celsius x ∧
    typedtemps.CelsiusToFahrenheit x = tempmethods.Celsius.Fahrenheit x ∧
    typedtemps.CelsiusToKelvin x = tempmethods.Celsius.Kelvin x ∧
    typedtemps.KelvinToCelsius x = tempmethods.Kelvin.Celsius x ∧
    typedtemps.FahrenheitToKelvin x = tempmethods.Fahrenheit.Kelvin x ∧
    typedtemps.KelvinToFahrenheit x = tempmethods.Kelvin.Fahrenheit x := by
  exact ⟨rfl, rfl, rfl, rfl, rfl, rfl⟩

/-- Two's-complement wraparound of Go's 64-bit `int` arithmetic: the
mathematical value reduced into `[-2^63, 2^63)`. -/
def wrapInt64 (z : ℤ) : ℤ := (z + 2 ^ 63) % 2 ^ 64 - 2 ^ 63

theorem wrapInt64_eq_self {z : ℤ} (h1 : -(2 ^ 63) ≤ z) (h2 : z < 2 ^ 63) :
    wrapInt64 z = z := by
  unfold wrapInt64
  omega

theorem wrapInt64_emod (z : ℤ) : wrapInt64 z % 2 ^ 64 = z % 2 ^ 64 := by
  unfold wrapInt64
  omega

namespace goutils

/-- `utils.Sum` from the shared helpers: `sum := 0`, then the wrapping
64-bit `int` addition `sum += num` for each element in order, returning
`sum`. -/
def Sum (nums : List ℤ) : ℤ := nums.foldl (fun sum num => wrapInt64 (sum + num)) 0

end goutils

theorem foldl_wrap_add_emod (l : List ℤ) :
    ∀ a : ℤ, (l.foldl (fun sum num => wrapInt64 (sum + num)) a) % 2 ^ 64 =
      (a + l.sum) % 2 ^ 64 := by
  induction l with
  | nil => intro a; simp
  | cons x xs ih =>
    intro a
    rw [List.foldl_cons, ih, List.sum_cons]
    have h1 : wrapInt64 (a + x) % 2 ^ 64 = (a + x) % 2 ^ 64 := wrapInt64_emod (a + x)
    omega

theorem foldl_wrap_add_exact (l : List ℤ) :
    ∀ a : ℤ,
      (∀ k : ℕ, k ≤ l.length →
        -(2 ^ 63) ≤ a + (l.take k).sum ∧ a + (l.take k).sum < 2 ^ 63) →
      l.foldl (fun sum num => wrapInt64 (sum + num)) a = a + l.sum := by
  induction l with
  | nil => intro a h; simp
  | cons x xs ih =>
    intro a h
    have h1 := h 1 (by simp)
    rw [List.foldl_cons]
    have hx : wrapInt64 (a + x) = a + x := by
      apply wrapInt64_eq_self
      · have := h1.1; simpa using this
      · have := h1.2; simpa using this
    rw [hx, ih (a + x) ?_]
    · rw [List.sum_cons]; ring
    · intro k hk
      have := h (k + 1) (by simpa using hk)
      simpa [List.take_succ_cons, add_assoc] using this

/-- C10 counterexample: on the slice `[MaxInt64, 1]` — a legal `[]int`
value — the Go loop wraps: `Sum` returns `MinInt64`, not the
mathematical sum `2^63`. -/
theorem C10_counterexample_overflow_wraps :
    goutils.Sum [2 ^ 63 - 1, 1] = -(2 ^ 63) ∧
    ([(2 : ℤ) ^ 63 - 1, 1]).sum = 2 ^ 63 ∧
    goutils.Sum [2 ^ 63 - 1, 1] ≠ ([(2 : ℤ) ^ 63 - 1, 1]).sum := by
  refine ⟨by decide, by decide, by decide⟩

/-- C10 (amended): `Sum` returns 0 for the empty slice, always agrees
with the mathematical sum of the slice modulo 2^64, and returns the
mathematical sum exactly whenever every running sum over a prefix of
the slice stays within the 64-bit `int` range; on slices whose running
sums overflow, the wrapping `sum += num` diverges from the mathematical
sum (see the counterexample). -/
theorem C10_Sum_wrapping_semantics :
    goutils.Sum [] = 0 ∧
    (∀ nums : List ℤ, goutils.Sum nums % 2 ^ 64 = nums.sum % 2 ^ 64) ∧
    (∀ nums : List ℤ,
      (∀ k : ℕ, k ≤ nums.length →
        -(2 ^ 63) ≤ (nums.take k).sum ∧ (nums.take k).sum < 2 ^ 63) →
      goutils.Sum nums = nums.sum) := by
  refine ⟨rfl, ?_, ?_⟩
  · intro nums
    unfold goutils.Sum
    rw [foldl_wrap_add_emod]
    simp
  · intro nums h
    unfold goutils.Sum
    rw [foldl_wrap_add_exact nums 0 (by intro k hk; simpa using h k hk)]
    simp

/-- C10 witness: instantiated at the slice `[1, 2, 3]`, whose running
sums all fit in 64-bit range. -/
theorem C10_Sum_wrapping_semantics_witness :
    (∀ k : ℕ, k ≤ ([1, 2, 3] : List ℤ).length →
      -(2 ^ 63) ≤ (([1, 2, 3] : List ℤ).take k).sum ∧
      (([1, 2, 3] : List ℤ).take k).sum < 2 ^ 63) ∧
    goutils.Sum [1, 2, 3] = ([1, 2, 3] : List ℤ).sum := by
  have h : ∀ k : ℕ, k ≤ ([1, 2, 3] : List ℤ).length →
      -(2 ^ 63) ≤ (([1, 2, 3] : List ℤ).take k).sum ∧
      (([1, 2, 3] : List ℤ).take k).sum < 2 ^ 63 := by decide
  exact ⟨h, C10_Sum_wrapping_semantics.2.2 [1, 2, 3] h⟩

/-- `rand.Intn(n)` fed from a caller-supplied source value `r`: panics
when `n <= 0` (modelled as `.error`), otherwise returns a value in
`[0, n)` — modelled as `r % n`, which ranges over exactly that interval
as `r` ranges over the naturals. -/
def randIntn (r : ℕ) (n : ℤ) : Except String ℤ :=
  if n ≤ 0 then .error "invalid argument to Intn" else .ok ((r : ℤ) % n)

/-- `utils.GenerateRandomNumber(min, max) = min + rand.Intn(max-min+1)`,
with the random source value `r` made explicit and each Go `int`
operation performed with wrapping 64-bit arithmetic. -/
def GenerateRandomNumber (r : ℕ) (lo hi : ℤ) : Except String ℤ :=
  (randIntn r (wrapInt64 (wrapInt64 (hi - lo) + 1))).map (fun v => wrapInt64 (lo + v))

/-- The loop of `utils.GenerateRandomNumbers`: fills positions `i`,
`i+1`, … drawing the source value for position `j` from the stream `o`;
a panic in any call aborts the whole loop. -/
def genLoop (o : ℕ → ℕ) (lo hi : ℤ) (i : ℕ) : ℕ → Except String (List ℤ)
  | 0 => .ok []
  | Nat.succ k =>
    match GenerateRandomNumber (o i) lo hi with
    | .error s => .error s
    | .ok v =>
      match genLoop o lo hi (i + 1) k with
      | .error s => .error s
      | .ok rest => .ok (v :: rest)

/-- `utils.GenerateRandomNumbers(min, max, n)`: `n` successive calls of
`GenerateRandomNumber` collected into a slice. -/
def GenerateRandomNumbers (o : ℕ → ℕ) (lo hi : ℤ) (n : ℕ) : Except String (List ℤ) :=
  genLoop o lo hi 0 n

/-- C9 counterexample: `min = MinInt64` and `max = MaxInt64` satisfy
`min <= max`, yet the `int` computation `max-min+1` wraps to 0, so
`rand.Intn` takes its panic branch — the claimed unreachability of the
panic under `min <= max` alone fails. -/
theorem C9_counterexample_extreme_range_panics :
    (-(2 ^ 63) : ℤ) ≤ 2 ^ 63 - 1 ∧
    GenerateRandomNumber 0 (-(2 ^ 63)) (2 ^ 63 - 1) =
      .error "invalid argument to Intn" := by
  constructor
  · decide
  · rfl

theorem GenerateRandomNumber_ok {lo hi : ℤ} (hlo : -(2 ^ 63) ≤ lo) (hhi : hi < 2 ^ 63)
    (hle : lo ≤ hi) (hw : hi - lo + 1 < 2 ^ 63) (r : ℕ) :
    ∃ v, GenerateRandomNumber r lo hi = .ok v ∧ lo ≤ v ∧ v ≤ hi := by
  have hw1 : wrapInt64 (hi - lo) = hi - lo := wrapInt64_eq_self (by omega) (by omega)
  have hw2 : wrapInt64 (hi - lo + 1) = hi - lo + 1 := wrapInt64_eq_self (by omega) (by omega)
  have hpos : (0 : ℤ) < hi - lo + 1 := by omega
  have hv1 : 0 ≤ (r : ℤ) % (hi - lo + 1) := Int.emod_nonneg _ (by omega)
  have hv2 : (r : ℤ) % (hi - lo + 1) < hi - lo + 1 := Int.emod_lt_of_pos _ hpos
  refine ⟨lo + (r : ℤ) % (hi - lo + 1), ?_, by omega, by omega⟩
  unfold GenerateRandomNumber randIntn
  rw [hw1, hw2, if_neg (by omega)]
  show Except.ok (wrapInt64 (lo + (r : ℤ) % (hi - lo + 1))) = _
  rw [wrapInt64_eq_self (by omega) (by omega)]

theorem genLoop_ok {lo hi : ℤ} (hlo : -(2 ^ 63) ≤ lo) (hhi : hi < 2 ^ 63)
    (hle : lo ≤ hi) (hw : hi - lo + 1 < 2 ^ 63) (o : ℕ → ℕ) :
    ∀ (k i : ℕ), ∃ l, genLoop o lo hi i k = .ok l ∧ l.length = k ∧
      ∀ x ∈ l, lo ≤ x ∧ x ≤ hi := by
  intro k
  induction k with
  | zero => intro i; exact ⟨[], rfl, rfl, by simp⟩
  | succ k ih =>
    intro i
    obtain ⟨v, hv, hvlo, hvhi⟩ := GenerateRandomNumber_ok hlo hhi hle hw (o i)
    obtain ⟨rest, hrest, hlen, hmem⟩ := ih (i + 1)
    refine ⟨v :: rest, ?_, by simp [hlen], ?_⟩
    · unfold genLoop
      rw [hv, hrest]
    · intro x hx
      rcases List.mem_cons.mp hx with hx | hx
      · exact hx ▸ ⟨hvlo, hvhi⟩
      · exact hmem x hx

/-- C9 (amended): when `min <= max` and the count `max - min + 1` is a
positive 64-bit `int` (no wraparound: `max - min + 1 < 2^63`),
`GenerateRandomNumber` cannot reach the panic branch of `rand.Intn` and
returns a value in `[min, max]` whatever the random source yields, and
`GenerateRandomNumbers(min, max, n)` returns a slice of length exactly
`n` all of whose elements lie in `[min, max]`.  Under `min <= max`
alone the panic branch is reachable (see the counterexample). -/
theorem C9_random_numbers_in_range_when_width_fits (o : ℕ → ℕ) (lo hi : ℤ) (n : ℕ)
    (hlo : -(2 ^ 63) ≤ lo) (hhi : hi < 2 ^ 63) (hle : lo ≤ hi)
    (hw : hi - lo + 1 < 2 ^ 63) :
    (∀ r : ℕ, ∃ v, GenerateRandomNumber r lo hi = .ok v ∧ lo ≤ v ∧ v ≤ hi) ∧
    (∃ l, GenerateRandomNumbers o lo hi n = .ok l ∧ l.length = n ∧
      ∀ x ∈ l, lo ≤ x ∧ x ≤ hi) := by
  exact ⟨fun r => GenerateRandomNumber_ok hlo hhi hle hw r, genLoop_ok hlo hhi hle hw o n 0⟩

/-- C9 witness: instantiated at min = 1, max = 6, n = 3 with the
identity random stream. -/
theorem C9_random_numbers_in_range_when_width_fits_witness :
    ((-(2 ^ 63) : ℤ) ≤ 1 ∧ (6 : ℤ) < 2 ^ 63 ∧ (1 : ℤ) ≤ 6 ∧
      (6 : ℤ) - 1 + 1 < 2 ^ 63) ∧
    (∃ v, GenerateRandomNumber 5 1 6 = .ok v ∧ 1 ≤ v ∧ v ≤ 6) ∧
    (∃ l, GenerateRandomNumbers (fun i => i) 1 6 3 = .ok l ∧ l.length = 3 ∧
      ∀ x ∈ l, 1 ≤ x ∧ x ≤ 6) := by
  refine ⟨⟨by decide, by decide, by decide, by decide⟩, ?_, ?_⟩
  · exact (C9_random_numbers_in_range_when_width_fits (fun i => i) 1 6 3
      (by decide) (by decide) (by decide) (by decide)).1 5
  · exact (C9_random_numbers_in_range_when_width_fits (fun i => i) 1 6 3
      (by decide) (by decide) (by decide) (by decide)).2

/-- Whether a dynamic error value is an `*fs.PathError`. -/
def isPathError : ErrVal → Bool
  | .pathError _ _ _ => true
  | _ => false

/-- Whether a dynamic error value is a `*json.SyntaxError`. -/
def isSyntaxError : ErrVal → Bool
  | .syntaxError _ => true
  | _ => false

/-- Whether a dynamic error value is the `os.ErrNotExist` sentinel
itself (identity comparison). -/
def isErrNotExistSentinel : ErrVal → Bool
  | .errNotExist => true
  | _ => false

/-- Whether the dynamic type's `Is(error) bool` method reports a match
against `os.ErrNotExist`: only `syscall.Errno` defines such a method. -/
def isMethodMatchesNotExist : ErrVal → Bool
  | .errno b => b
  | _ => false

/-- The chain walk of `errors.As`, started at a non-nil error: returns
the first chain node whose dynamic type satisfies `p`, unwrapping
otherwise. -/
def errorsAsFrom (p : ErrVal → Bool) (e : ErrVal) : Option ErrVal :=
  if p e then some e
  else
    match h : errorsUnwrap e with
    | none => none
    | some e' => errorsAsFrom p e'
termination_by sizeOf e
decreasing_by exact sizeOf_lt_of_errorsUnwrap h

/-- `errors.As(err, &target)` for a target type recognised by `p`:
nil never matches; otherwise walk the chain from `err`. -/
def errorsAs (p : ErrVal → Bool) : Option ErrVal → Option ErrVal
  | none => none
  | some e => errorsAsFrom p e

/-- The chain walk of `errors.Is(err, os.ErrNotExist)` from a non-nil
error: at each node, first an identity comparison against the sentinel,
then the node's own `Is` method, then unwrap. -/
def errorsIsNotExistFrom (e : ErrVal) : Bool :=
  isErrNotExistSentinel e || isMethodMatchesNotExist e ||
    match h : errorsUnwrap e with
    | none => false
    | some e' => errorsIsNotExistFrom e'
termination_by sizeOf e
decreasing_by exact sizeOf_lt_of_errorsUnwrap h

/-- `errors.Is(err, os.ErrNotExist)`: false for nil `err`. -/
def errorsIsNotExist : Option ErrVal → Bool
  | none => false
  | some e => errorsIsNotExistFrom e

/-- What the file system plus JSON decoder can do for one path in the
interrogating-errors example: read and decode succeed; `ioutil.ReadFile`
fails with an `*fs.PathError` wrapping a not-exist errno; it fails with
an `*fs.PathError` wrapping some other errno; or reading succeeds and
`json.Unmarshal` returns a `*json.SyntaxError`. -/
inductive ReadOutcome : Type where
  | ok
  | notExist
  | otherPathError
  | jsonSyntaxError (offset : Nat)

/-- `readAJSONFile` from `08-interrogating-errors/main.go`, parametrised
by the file system `fsys`: a failing read returns the `ReadFile` error
wrapped by `fmt.Errorf("readAJSONFile file error: %w", err)`, a failing
decode returns the `Unmarshal` error wrapped by
`fmt.Errorf("readAJSONFile JSON error: %w", err)`, success returns nil. -/
def readAJSONFile (fsys : String → ReadOutcome) (path : String) : Option ErrVal :=
  match fsys path with
  | .ok => none
  | .notExist =>
      some (.wrapf "readAJSONFile file error" (.pathError "open" path (.errno true)))
  | .otherPathError =>
      some (.wrapf "readAJSONFile file error" (.pathError "open" path (.errno false)))
  | .jsonSyntaxError off =>
      some (.wrapf "readAJSONFile JSON error" (.syntaxError off))

/-- `readJSONFileAndFallback` from `08-interrogating-errors/main.go`,
with explicit recursion fuel: the outer `none` means the fuel ran out,
`some r` that the call returned the error value `r`.  On a failed read it
recurses on `"malformed.json"` when the chain has an `*fs.PathError`
matching `os.ErrNotExist`, returns a wrapping of the path error for any
other `*fs.PathError`, recurses on `"good.json"` when the chain has a
`*json.SyntaxError`, and returns nil otherwise. -/
def readJSONFileAndFallback (fsys : String → ReadOutcome) :
    Nat → String → Option (Option ErrVal)
  | 0, _ => none
  | Nat.succ fuel, path =>
    match readAJSONFile fsys path with
    | none => some none
    | some err =>
      match errorsAs isPathError (some err) with
      | some pErr =>
        if errorsIsNotExist (some pErr) then
          readJSONFileAndFallback fsys fuel "malformed.json"
        else
          some (some (.wrapf "an unknown fs.PathError occurred" pErr))
      | none =>
        match errorsAs isSyntaxError (some err) with
        | some _ => readJSONFileAndFallback fsys fuel "good.json"
        | none => some none

/-- The error chain of a (possibly nil) error contains an
`*fs.PathError` that itself matches `os.ErrNotExist`. -/
def containsPathErrorNotExist (r : Option ErrVal) : Bool :=
  match r with
  | none => false
  | some e => (chainList e).any (fun x => isPathError x && errorsIsNotExistFrom x)

/-- The error chain of a (possibly nil) error contains an
`*fs.PathError`. -/
def containsPathError (r : Option ErrVal) : Bool :=
  match r with
  | none => false
  | some e => (chainList e).any isPathError

/-- The error chain of a (possibly nil) error contains a
`*json.SyntaxError`. -/
def containsSyntaxError (r : Option ErrVal) : Bool :=
  match r with
  | none => false
  | some e => (chainList e).any isSyntaxError

theorem errorsAsFrom_pos {p : ErrVal → Bool} {e : ErrVal} (hp : p e = true) :
    errorsAsFrom p e = some e := by
  rw [errorsAsFrom, if_pos hp]

theorem errorsAsFrom_neg_none {p : ErrVal → Bool} {e : ErrVal} (hp : p e = false)
    (h : errorsUnwrap e = none) : errorsAsFrom p e = none := by
  rw [errorsAsFrom, if_neg (by simp [hp])]
  split
  · rfl
  · rename_i e' h'; rw [h] at h'; exact absurd h' (by simp)

theorem errorsAsFrom_neg_some {p : ErrVal → Bool} {e e' : ErrVal} (hp : p e = false)
    (h : errorsUnwrap e = some e') : errorsAsFrom p e = errorsAsFrom p e' := by
  rw [errorsAsFrom, if_neg (by simp [hp])]
  split
  · rename_i h'; rw [h] at h'; exact absurd h' (by simp)
  · rename_i e'' h'; rw [h] at h'; cases h'; rfl

theorem errorsIsNotExistFrom_unfold_none {e : ErrVal} (h : errorsUnwrap e = none) :
    errorsIsNotExistFrom e = (isErrNotExistSentinel e || isMethodMatchesNotExist e) := by
  rw [errorsIsNotExistFrom]
  split
  · simp
  · rename_i e' h'; rw [h] at h'; exact absurd h' (by simp)

theorem errorsIsNotExistFrom_unfold_some {e e' : ErrVal} (h : errorsUnwrap e = some e') :
    errorsIsNotExistFrom e =
      (isErrNotExistSentinel e || isMethodMatchesNotExist e || errorsIsNotExistFrom e') := by
  rw [errorsIsNotExistFrom]
  split
  · rename_i h'; rw [h] at h'; exact absurd h' (by simp)
  · rename_i e'' h'; rw [h] at h'; cases h'; rfl

/-- C4: for every file system and every path, `readJSONFileAndFallback`
falls back by recursing on `"malformed.json"` exactly when the error
chain of the failed read contains an `*fs.PathError` that also matches
`os.ErrNotExist`; falls back by recursing on `"good.json"` exactly when
the chain contains a `*json.SyntaxError`; returns a wrapped error for any
other `*fs.PathError`; and returns nil in the remaining cases, including
a successful read. -/
theorem C4_fallback_dispatch (fsys : String → ReadOutcome) (fuel : Nat) (path : String) :
    readJSONFileAndFallback fsys (fuel + 1) path =
      (if containsPathErrorNotExist (readAJSONFile fsys path) then
        readJSONFileAndFallback fsys fuel "malformed.json"
      else if containsSyntaxError (readAJSONFile fsys path) then
        readJSONFileAndFallback fsys fuel "good.json"
      else if containsPathError (readAJSONFile fsys path) then
        some (some (.wrapf "an unknown fs.PathError occurred"
          (.pathError "open" path (.errno false))))
      else some none) := by
  cases hfs : fsys path <;>
    simp [readJSONFileAndFallback, readAJSONFile, hfs, errorsAs, errorsIsNotExist,
      containsPathErrorNotExist, containsPathError, containsSyntaxError,
      errorsAsFrom_pos, errorsAsFrom_neg_some, errorsAsFrom_neg_none,
      errorsIsNotExistFrom_unfold_some, errorsIsNotExistFrom_unfold_none,
      chainList_eq_some, chainList_eq_none,
      isPathError, isSyntaxError, isErrNotExistSentinel, isMethodMatchesNotExist,
      errorsUnwrap]

/-- A scheduling event of the `raceConditions` example: goroutine `g`
reads the shared `finalValue`, or writes back its increment.  The Go
statement `finalValue += i` is the non-atomic pair read-then-write. -/
inductive RaceEvent : Type where
  | read (g : Fin 11)
  | write (g : Fin 11)
  deriving DecidableEq

/-- Shared counter plus each goroutine's local view of it. -/
structure RaceState where
  finalValue : ℤ
  regs : Fin 11 → ℤ

/-- Effect of one event: a read loads the shared counter into the
goroutine's local; a write stores local + i back into the counter. -/
def raceStep (s : RaceState) : RaceEvent → RaceState
  | .read g => { s with regs := Function.update s.regs g s.finalValue }
  | .write g => { s with finalValue := s.regs g + (g : ℤ) }

/-- The value `raceConditions()` returns under interleaving `sched`:
`finalValue` starts at 0 and the scheduled events run in order. -/
def execRace (sched : List RaceEvent) : ℤ :=
  (sched.foldl raceStep { finalValue := 0, regs := fun _ => 0 }).finalValue

/-- A legal interleaving of `raceConditions`: each of the 11 goroutines
(`i` from 0 through 10) reads exactly once, writes exactly once, and
reads before it writes. -/
def validSchedule (sched : List RaceEvent) : Prop :=
  ∀ g : Fin 11,
    sched.count (.read g) = 1 ∧ sched.count (.write g) = 1 ∧
    sched.indexOf (.read g) < sched.indexOf (.write g)

instance (sched : List RaceEvent) : Decidable (validSchedule sched) := by
  unfold validSchedule; infer_instance

/-- The schedule in which every goroutine runs to completion before the
next starts — the interleaving produced whenever no two goroutines
overlap in time. -/
def seqSchedule : List RaceEvent :=
  (List.finRange 11).flatMap fun g => [.read g, .write g]

/-- The driver loop of `runRaceConditionsAndMutexes`, reading the stream
of values successive `raceConditions()` calls return: breaks as soon as
the set of distinct results has size 10, otherwise records the result
and runs again.  `fuel` bounds the number of iterations; `none` means
the fuel ran out before the loop broke, `some runs` that it broke after
`runs` runs. -/
def driverLoop (results : ℕ → ℤ) : ℕ → List ℤ → ℕ → Option ℕ
  | 0, _, _ => none
  | Nat.succ fuel, resultMap, runs =>
    if resultMap.length = 10 then some runs
    else
      let result := results runs
      let resultMap' := if resultMap.contains result then resultMap
        else resultMap ++ [result]
      driverLoop results fuel resultMap' (runs + 1)

/-- The distinct results among the first `n` values of the stream, in
order of first occurrence — the loop's `resultMap` after `n` runs. -/
def seenAfter (results : ℕ → ℤ) : ℕ → List ℤ
  | 0 => []
  | n + 1 =>
    let rm := seenAfter results n
    if rm.contains (results n) then rm else rm ++ [results n]

/-- C6 counterexample: the fully sequential interleaving is a legal
execution of `raceConditions` and returns 55; on an execution where
every one of the repeated calls runs under it, the stream of results is
constantly 55, at most one distinct value is ever collected, and the
driver loop never terminates however long it runs. -/
theorem C6_counterexample_constant_race_result :
    validSchedule seqSchedule ∧ execRace seqSchedule = 55 ∧
    ∀ fuel : ℕ, driverLoop (fun _ => (55 : ℤ)) fuel [] 0 = none := by
  refine ⟨by decide, by decide, ?_⟩
  have key : ∀ fuel runs (rm : List ℤ), (rm = [] ∨ rm = [55]) →
      driverLoop (fun _ => (55 : ℤ)) fuel rm runs = none := by
    intro fuel
    induction fuel with
    | zero => intro runs rm hrm; rfl
    | succ fuel ih =>
      intro runs rm hrm
      rcases hrm with h | h <;> subst h <;>
        simp [driverLoop] <;> exact ih (runs + 1) _ (Or.inr rfl)
  exact fun fuel => key fuel 0 [] (Or.inl rfl)

theorem seenAfter_len_succ (results : ℕ → ℤ) (n : ℕ) :
    (seenAfter results (n + 1)).length ≤ (seenAfter results n).length + 1 := by
  simp only [seenAfter]
  split <;> simp

theorem driverLoop_halts_of_seen (results : ℕ → ℤ) :
    ∀ fuel runs, 10 ≤ (seenAfter results (runs + fuel)).length →
      (seenAfter results runs).length ≤ 10 →
      ∃ r, driverLoop results (fuel + 1) (seenAfter results runs) runs = some r := by
  intro fuel
  induction fuel with
  | zero =>
    intro runs h10 hle
    have hlen : (seenAfter results runs).length = 10 := by
      have : runs + 0 = runs := rfl
      rw [this] at h10; omega
    exact ⟨runs, by simp [driverLoop, hlen]⟩
  | succ fuel ih =>
    intro runs h10 hle
    by_cases hlen : (seenAfter results runs).length = 10
    · exact ⟨runs, by simp [driverLoop, hlen]⟩
    · have hstep : seenAfter results (runs + 1) =
        (if (seenAfter results runs).contains (results runs) then seenAfter results runs
         else seenAfter results runs ++ [results runs]) := rfl
      have hle' : (seenAfter results (runs + 1)).length ≤ 10 := by
        have := seenAfter_len_succ results runs
        omega
      have h10' : 10 ≤ (seenAfter results ((runs + 1) + fuel)).length := by
        have harith : (runs + 1) + fuel = runs + (fuel + 1) := by omega
        rw [harith]
        exact h10
      obtain ⟨r, hr⟩ := ih (runs + 1) h10' hle'
      refine ⟨r, ?_⟩
      show driverLoop results (fuel + 1 + 1) (seenAfter results runs) runs = some r
      simp only [driverLoop, if_neg hlen]
      rw [← hstep]
      exact hr

theorem driverLoop_some_implies_seen (results : ℕ → ℤ) :
    ∀ fuel runs r, driverLoop results fuel (seenAfter results runs) runs = some r →
      ∃ n, 10 ≤ (seenAfter results n).length := by
  intro fuel
  induction fuel with
  | zero =>
    intro runs r h
    exact absurd h (by simp [driverLoop])
  | succ fuel ih =>
    intro runs r h
    by_cases hlen : (seenAfter results runs).length = 10
    · exact ⟨runs, by omega⟩
    · have hstep : seenAfter results (runs + 1) =
        (if (seenAfter results runs).contains (results runs) then seenAfter results runs
         else seenAfter results runs ++ [results runs]) := rfl
      simp only [driverLoop, if_neg hlen] at h
      rw [← hstep] at h
      exact ih (runs + 1) r h

/-- C6 (amended): the driver loop of the race-conditions example
terminates exactly on those executions in which the stream of
`raceConditions()` results eventually contains 10 distinct values:
whenever the first `n` results already contain 10 distinct values the
loop breaks within fuel `n + 1`, and conversely a run that breaks at
all has seen 10 distinct values.  Termination on every execution fails:
a legal execution returns 55 on every call (see the counterexample). -/
theorem C6_driver_loop_terminates_iff_ten_distinct (results : ℕ → ℤ) :
    (∀ n, 10 ≤ (seenAfter results n).length →
      ∃ runs, driverLoop results (n + 1) [] 0 = some runs) ∧
    ((∃ fuel runs, driverLoop results fuel [] 0 = some runs) ↔
      ∃ n, 10 ≤ (seenAfter results n).length) := by
  have fwd : ∀ n, 10 ≤ (seenAfter results n).length →
      ∃ runs, driverLoop results (n + 1) [] 0 = some runs := by
    intro n hn
    obtain ⟨r, hr⟩ := driverLoop_halts_of_seen results n 0 (by simpa using hn)
      (by simp [seenAfter])
    exact ⟨r, by simpa [seenAfter] using hr⟩
  refine ⟨fwd, ?_, ?_⟩
  · rintro ⟨fuel, runs, h⟩
    exact driverLoop_some_implies_seen results fuel 0 runs h
  · rintro ⟨n, hn⟩
    obtain ⟨runs, h⟩ := fwd n hn
    exact ⟨n + 1, runs, h⟩

/-- C6 witness: on the stream 0, 1, 2, … the first ten results are
pairwise distinct and the driver loop halts within eleven iterations. -/
theorem C6_driver_loop_terminates_iff_ten_distinct_witness :
    10 ≤ (seenAfter (fun k => (k : ℤ)) 10).length ∧
    ∃ runs, driverLoop (fun k => (k : ℤ)) 11 [] 0 = some runs := by
  have h10 : 10 ≤ (seenAfter (fun k => (k : ℤ)) 10).length := by decide
  exact ⟨h10, (C6_driver_loop_terminates_iff_ten_distinct (fun k => (k : ℤ))).1 10 h10⟩

/-- A POSIX path, as the `cd` commands of `test.sh` see it: absolute
(`"$reporoot"`) or relative to the working directory (the `./dir`
outputs of `find`), with its segments listed. -/
inductive ShPath : Type where
  | abs (segs : List String)
  | rel (segs : List String)
  deriving DecidableEq

/-- Resolution of `cd p` from working directory `cwd` (a segment list):
absolute paths stand, relative ones are joined onto `cwd`. -/
def resolvePath (cwd : List String) : ShPath → List String
  | .abs segs => segs
  | .rel segs => cwd ++ segs

/-- One recorded command of an iteration of `test.sh`. -/
inductive ScriptAction : Type where
  | cdAttempt (target : List String) (ok : Bool)
  | buildAttempt (dir : List String) (ok : Bool)
  | runAttempt (dir : List String) (ok : Bool)
  | rmExample (dir : List String)
  | cdRoot (root : List String)
  deriving DecidableEq

/-- The machine `test.sh` runs against: which directories exist, in
which directories `go build -o example .` succeeds, and in which
directories `./example` exits 0. -/
structure ScriptEnv where
  dirExistsL : List (List String)
  buildOKL : List (List String)
  runOKL : List (List String)

/-- One iteration of the `for` loop of `test.sh`:
`cd "$example_dir"` — a plain command, whose failure does not stop the
iteration — followed by the conditional list
`go build -o example . && ./example && rm ./example && cd "$reporoot"`.
Returns the working directory after the iteration, the exit status of
the last command executed, and the commands executed. -/
def scriptIter (env : ScriptEnv) (root cwd : List String) (rel : ShPath) :
    List String × Bool × List ScriptAction :=
  let target := resolvePath cwd rel
  let cdOK := env.dirExistsL.contains target
  let cwd1 := if cdOK then target else cwd
  if env.buildOKL.contains cwd1 then
    if env.runOKL.contains cwd1 then
      (root, true,
        [.cdAttempt target cdOK, .buildAttempt cwd1 true, .runAttempt cwd1 true,
         .rmExample cwd1, .cdRoot root])
    else
      (cwd1, false,
        [.cdAttempt target cdOK, .buildAttempt cwd1 true, .runAttempt cwd1 false])
  else
    (cwd1, false, [.cdAttempt target cdOK, .buildAttempt cwd1 false])

/-- The loop of `test.sh` over the `main.go` directories `find`
produced, threading the working directory and the status of the last
executed command. -/
def runScriptFrom (env : ScriptEnv) (root : List String) :
    List ShPath → List String → Bool → List (List ScriptAction) × Bool
  | [], _, st => ([], st)
  | rel :: rest, cwd, _ =>
    let r := scriptIter env root cwd rel
    let r2 := runScriptFrom env root rest r.1 r.2.1
    (r.2.2 :: r2.1, r2.2)

/-- `test.sh`: `reporoot="$PWD"`, then the loop from the repository
root; the script's exit status is that of the last command executed
(success when `find` lists no files). -/
def testScript (env : ScriptEnv) (root : List String) (rels : List ShPath) :
    List (List ScriptAction) × Bool :=
  runScriptFrom env root rels root true

def isBuildAttempt : ScriptAction → Bool
  | .buildAttempt _ _ => true
  | _ => false

def isRunAttempt : ScriptAction → Bool
  | .runAttempt _ _ => true
  | _ => false

def isFailedBuild : ScriptAction → Bool
  | .buildAttempt _ ok => !ok
  | _ => false

def isFailedRun : ScriptAction → Bool
  | .runAttempt _ ok => !ok
  | _ => false

/-- The iteration executed `rm ./example` or `cd "$reporoot"`. -/
def hasCleanupCmds (acts : List ScriptAction) : Bool :=
  acts.any fun a =>
    match a with
    | .rmExample _ => true
    | .cdRoot _ => true
    | _ => false

/-- The iteration's build or run exited non-zero. -/
def iterFailed (acts : List ScriptAction) : Bool :=
  acts.any isFailedBuild || acts.any isFailedRun

/-- The iteration executed a build or a run command. -/
def iterBuildsOrRuns (acts : List ScriptAction) : Bool :=
  acts.any isBuildAttempt || acts.any isRunAttempt

/-- The halting the spec claims of `test.sh`: once an iteration's build
or run exits non-zero, no later iteration builds or runs anything.
This definition follows the spec's words, to be compared with the
modelled script execution. -/
def claimedHaltOnFailure : List (List ScriptAction) → Bool
  | [] => true
  | acts :: rest =>
    if iterFailed acts then rest.all fun l => !iterBuildsOrRuns l
    else claimedHaltOnFailure rest

/-- A repository with two example directories in which the first
example's build fails and the second's would succeed. -/
def envC5 : ScriptEnv :=
  { dirExistsL := [["repo"], ["repo", "a"], ["repo", "b"]]
  , buildOKL := [["repo", "b"]]
  , runOKL := [["repo", "b"]] }

/-- C5 counterexample: in a repository with two example directories
where the first example's build exits non-zero, the first iteration
fails, yet the next iteration still attempts a build — the `for` loop is
not halted by the failure, contradicting the claimed halting. -/
theorem C5_counterexample_loop_continues_after_failure :
    iterFailed ((testScript envC5 ["repo"] [.rel ["a"], .rel ["b"]]).1.getD 0 []) = true ∧
    iterBuildsOrRuns ((testScript envC5 ["repo"] [.rel ["a"], .rel ["b"]]).1.getD 1 []) = true ∧
    claimedHaltOnFailure (testScript envC5 ["repo"] [.rel ["a"], .rel ["b"]]).1 = false := by
  refine ⟨by decide, by decide, by decide⟩

theorem scriptIter_shape (env : ScriptEnv) (root cwd : List String) (rel : ShPath) :
    ∃ target cdOK d,
      scriptIter env root cwd rel =
        (root, true, [.cdAttempt target cdOK, .buildAttempt d true, .runAttempt d true,
          .rmExample d, .cdRoot root]) ∨
      scriptIter env root cwd rel =
        (d, false, [.cdAttempt target cdOK, .buildAttempt d true, .runAttempt d false]) ∨
      scriptIter env root cwd rel =
        (d, false, [.cdAttempt target cdOK, .buildAttempt d false]) := by
  refine ⟨resolvePath cwd rel, env.dirExistsL.contains (resolvePath cwd rel),
    if env.dirExistsL.contains (resolvePath cwd rel) then resolvePath cwd rel else cwd, ?_⟩
  simp only [scriptIter]
  split_ifs <;>
    first
      | exact Or.inl rfl
      | exact Or.inr (Or.inl rfl)
      | exact Or.inr (Or.inr rfl)

theorem runScriptFrom_spec (env : ScriptEnv) (root : List String) :
    ∀ (rels : List ShPath) (cwd : List String) (st : Bool),
      (runScriptFrom env root rels cwd st).1.length = rels.length ∧
      (∀ l ∈ (runScriptFrom env root rels cwd st).1,
        l.any isBuildAttempt = true ∧
        (l.any isFailedBuild = true → l.any isRunAttempt = false) ∧
        (l.any isFailedRun = true → hasCleanupCmds l = false)) ∧
      (runScriptFrom env root rels cwd st).2 =
        ((runScriptFrom env root rels cwd st).1.map fun l => !iterFailed l).getLastD st := by
  intro rels
  induction rels with
  | nil => intro cwd st; exact ⟨rfl, by simp [runScriptFrom], rfl⟩
  | cons rel rest ih =>
    intro cwd st
    obtain ⟨target, cdOK, d, hcase⟩ := scriptIter_shape env root cwd rel
    rcases hcase with hc | hc | hc
    · obtain ⟨ihlen, ihall, ihst⟩ := ih root true
      simp only [runScriptFrom, hc]
      refine ⟨by simp [ihlen], ?_, ?_⟩
      · intro l hl
        rcases List.mem_cons.mp hl with h | h
        · subst h
          refine ⟨by simp [isBuildAttempt], ?_, ?_⟩ <;>
            intro hbad <;>
            simp [isFailedBuild, isFailedRun, List.any] at hbad
        · exact ihall l h
      · rw [List.map_cons, List.getLastD_cons, ihst]
        simp [iterFailed, isFailedBuild, isFailedRun]
    · obtain ⟨ihlen, ihall, ihst⟩ := ih d false
      simp only [runScriptFrom, hc]
      refine ⟨by simp [ihlen], ?_, ?_⟩
      · intro l hl
        rcases List.mem_cons.mp hl with h | h
        · subst h
          refine ⟨by simp [isBuildAttempt], ?_, ?_⟩
          · intro hbad
            simp [isFailedBuild, List.any] at hbad
          · intro hbad
            simp [hasCleanupCmds, List.any]
        · exact ihall l h
      · rw [List.map_cons, List.getLastD_cons, ihst]
        simp [iterFailed, isFailedBuild, isFailedRun]
    · obtain ⟨ihlen, ihall, ihst⟩ := ih d false
      simp only [runScriptFrom, hc]
      refine ⟨by simp [ihlen], ?_, ?_⟩
      · intro l hl
        rcases List.mem_cons.mp hl with h | h
        · subst h
          refine ⟨by simp [isBuildAttempt], ?_, ?_⟩
          · intro hbad
            simp [isRunAttempt, List.any]
          · intro hbad
            simp [isFailedRun, List.any] at hbad
        · exact ihall l h
      · rw [List.map_cons, List.getLastD_cons, ihst]
        simp [iterFailed, isFailedBuild, isFailedRun]

/-- C5 (amended): a non-zero exit from building or running an example
short-circuits only the rest of that iteration's `&&` list — after a
failed build the example is not run, and after a failed run neither
`rm ./example` nor `cd "$reporoot"` executes — but the `for` loop is
not halted: every file `find` listed still gets an iteration that
attempts a build (possibly from a stale working directory); and
failures are not aggregated: the script's exit status is that of the
last command executed, which is the final iteration's own status
(success when no files are listed). -/
theorem C5_loop_continues_and_status_not_aggregated (env : ScriptEnv)
    (root : List String) (rels : List ShPath) :
    (testScript env root rels).1.length = rels.length ∧
    (∀ l ∈ (testScript env root rels).1,
      l.any isBuildAttempt = true ∧
      (l.any isFailedBuild = true → l.any isRunAttempt = false) ∧
      (l.any isFailedRun = true → hasCleanupCmds l = false)) ∧
    (testScript env root rels).2 =
      ((testScript env root rels).1.map fun l => !iterFailed l).getLastD true := by
  exact runScriptFrom_spec env root rels root true
